import Mathlib

/-!
Verification of the hsd naming layer specification against the repository
sources.  The repository under review ships the SlidingWindow rate limiters
(src/window.js and src/lib/net/window.js) together with the integration
tests of the naming layer; the covenant, auction and name-state modules
themselves live outside the shipped tree, so those parts are modelled from
the specification text, as marked on each definition.
-/

/-- Modelled from the spec: the network timing constants
(`treeInterval`, `biddingPeriod`, `revealPeriod`, `transferLockup`,
renewal window length) supplied per network profile; the module
`lib/protocol/network` that defines them is not in the source tree. -/
structure Names where
  treeInterval : Nat
  biddingPeriod : Nat
  revealPeriod : Nat
  transferLockup : Nat
  renewalWindow : Nat
deriving Repr, DecidableEq

/-- The four lifecycle phases of a name within one auction cycle. -/
inductive Phase where
  | OPENING
  | BIDDING
  | REVEAL
  | CLOSED
deriving Repr, DecidableEq

/-- Modelled from the spec: the Height-Gated Scheduler, a pure function
`phase(openHeight, currentHeight, constants)`; the module implementing it
(`lib/covenants/namestate`) is not in the source tree.
OPENING while `currentHeight < openHeight + treeInterval`, then BIDDING for
`biddingPeriod` blocks, then REVEAL for `revealPeriod` blocks, then CLOSED. -/
def phase (c : Names) (openHeight currentHeight : Nat) : Phase :=
  if currentHeight < openHeight + c.treeInterval then .OPENING
  else if currentHeight < openHeight + c.treeInterval + c.biddingPeriod then .BIDDING
  else if currentHeight < openHeight + c.treeInterval + c.biddingPeriod + c.revealPeriod then
    .REVEAL
  else .CLOSED

/-- Numeric rank of a phase in lifecycle order. -/
def Phase.rank : Phase → Nat
  | .OPENING => 0
  | .BIDDING => 1
  | .REVEAL => 2
  | .CLOSED => 3

example : phase ⟨5, 5, 10, 10, 100⟩ 100 104 = .OPENING := by decide
example : phase ⟨5, 5, 10, 10, 100⟩ 100 105 = .BIDDING := by decide
example : phase ⟨5, 5, 10, 10, 100⟩ 100 110 = .REVEAL := by decide
example : phase ⟨5, 5, 10, 10, 100⟩ 100 120 = .CLOSED := by decide

/-- C2: for every name opened at `openHeight` and every `currentHeight`, the
phase function returns OPENING iff `currentHeight < openHeight + treeInterval`,
BIDDING iff `openHeight + treeInterval ≤ currentHeight <
openHeight + treeInterval + biddingPeriod`, REVEAL for the next
`revealPeriod` blocks, and CLOSED thereafter; the result is a function of the
two heights and the network constants alone. -/
theorem phase_window_characterization (c : Names) (openHeight currentHeight : Nat) :
    (phase c openHeight currentHeight = .OPENING ↔
      currentHeight < openHeight + c.treeInterval) ∧
    (phase c openHeight currentHeight = .BIDDING ↔
      openHeight + c.treeInterval ≤ currentHeight ∧
      currentHeight < openHeight + c.treeInterval + c.biddingPeriod) ∧
    (phase c openHeight currentHeight = .REVEAL ↔
      openHeight + c.treeInterval + c.biddingPeriod ≤ currentHeight ∧
      currentHeight < openHeight + c.treeInterval + c.biddingPeriod + c.revealPeriod) ∧
    (phase c openHeight currentHeight = .CLOSED ↔
      openHeight + c.treeInterval + c.biddingPeriod + c.revealPeriod ≤ currentHeight) := by
  unfold phase
  repeat' split
  all_goals refine ⟨?_, ?_, ?_, ?_⟩
  all_goals try simp_all
  all_goals omega

/-- The rank of the phase never decreases as the height grows. -/
theorem phase_rank_mono (c : Names) (openHeight h1 h2 : Nat) (hle : h1 ≤ h2) :
    (phase c openHeight h1).rank ≤ (phase c openHeight h2).rank := by
  unfold phase
  repeat' split
  all_goals simp only [Phase.rank]
  all_goals omega

/-- Phases of equal rank are equal. -/
theorem Phase.rank_injective (p q : Phase) (h : p.rank = q.rank) : p = q := by
  cases p <;> cases q <;> simp_all [Phase.rank]

/-- C7: within one auction cycle the phase of a name is a total monotone
function of height: for `h1 ≤ h2 ≤ h3`, if the phase at `h1` and at `h3`
agree then the phase at `h2` also agrees (so a phase, once left, is never
re-entered), and CLOSED, once reached, persists. -/
theorem phase_monotone_no_reentry (c : Names) (openHeight h1 h2 h3 : Nat)
    (h12 : h1 ≤ h2) (h23 : h2 ≤ h3) :
    ((phase c openHeight h1).rank ≤ (phase c openHeight h2).rank) ∧
    (phase c openHeight h1 = phase c openHeight h3 →
      phase c openHeight h2 = phase c openHeight h1) ∧
    (phase c openHeight h1 = .CLOSED → phase c openHeight h2 = .CLOSED) := by
  refine ⟨phase_rank_mono c openHeight h1 h2 h12, ?_, ?_⟩
  · intro h13
    have m1 := phase_rank_mono c openHeight h1 h2 h12
    have m2 := phase_rank_mono c openHeight h2 h3 h23
    rw [← h13] at m2
    exact Phase.rank_injective _ _ (Nat.le_antisymm m2 m1)
  · intro hcl
    have m1 := phase_rank_mono c openHeight h1 h2 h12
    rw [hcl] at m1
    have hb : (phase c openHeight h2).rank ≤ 3 := by
      cases phase c openHeight h2 <;> simp [Phase.rank]
    refine Phase.rank_injective _ _ ?_
    have hc : Phase.CLOSED.rank = 3 := rfl
    omega

/-- Witness for C7 at regtest-like constants, open height 100, heights
106 ≤ 107 ≤ 109 (all inside the BIDDING window). -/
theorem phase_monotone_no_reentry_witness :
    ((phase ⟨5, 5, 10, 10, 100⟩ 100 106).rank ≤
      (phase ⟨5, 5, 10, 10, 100⟩ 100 107).rank) ∧
    (phase ⟨5, 5, 10, 10, 100⟩ 100 106 = phase ⟨5, 5, 10, 10, 100⟩ 100 109 →
      phase ⟨5, 5, 10, 10, 100⟩ 100 107 = phase ⟨5, 5, 10, 10, 100⟩ 100 106) ∧
    (phase ⟨5, 5, 10, 10, 100⟩ 100 106 = .CLOSED →
      phase ⟨5, 5, 10, 10, 100⟩ 100 107 = .CLOSED) :=
  phase_monotone_no_reentry ⟨5, 5, 10, 10, 100⟩ 100 106 107 109
    (by decide) (by decide)

/-- The largest element of a list of bid amounts (0 when the list is empty). -/
def listMax (l : List Nat) : Nat := l.foldr Nat.max 0

theorem listMax_cons (a : Nat) (l : List Nat) :
    listMax (a :: l) = max a (listMax l) := rfl

theorem le_listMax {l : List Nat} {x : Nat} (h : x ∈ l) : x ≤ listMax l := by
  induction l with
  | nil => simp at h
  | cons a t ih =>
    rw [listMax_cons]
    rcases List.mem_cons.mp h with rfl | hmem
    · exact Nat.le_max_left _ _
    · exact Nat.le_trans (ih hmem) (Nat.le_max_right _ _)

theorem listMax_mem {l : List Nat} (h : l ≠ []) : listMax l ∈ l := by
  induction l with
  | nil => exact absurd rfl h
  | cons a t ih =>
    cases t with
    | nil => simp [listMax_cons, listMax]
    | cons b t2 =>
      have ihm := ih (by simp)
      rcases Nat.le_total a (listMax (b :: t2)) with hle | hle
      · rw [listMax_cons, max_eq_right hle]
        exact List.mem_cons_of_mem _ ihm
      · rw [listMax_cons, max_eq_left hle]
        exact List.mem_cons_self _ _

/-- Modelled from the spec: the settlement price computed by the Auction
Engine at the CLOSED transition (`computeAuctionWinner`); the module
implementing it (`lib/covenants`) is not in the source tree.  With no
reveals the auction voids (no CLOSED settlement, `none`); with a sole
reveal the price is that reveal; with two or more reveals the price is the
largest amount remaining after one occurrence of the winning (largest)
amount is removed. -/
def settlementPrice (reveals : List Nat) : Option Nat :=
  match reveals with
  | [] => none
  | [b] => some b
  | l => some (listMax (l.erase (listMax l)))

example : settlementPrice [1000, 2000] = some 1000 := by decide
example : settlementPrice [2000, 1000] = some 1000 := by decide
example : settlementPrice [5] = some 5 := by decide
example : settlementPrice [7, 7, 3] = some 7 := by decide

/-- C1: the settlement price is `none` (the auction voids, no CLOSED
settlement) with zero reveals and the sole revealed amount with one reveal;
with at least two reveals it is a second-highest revealed amount: it occurs
among the reveals, at most one reveal exceeds it, and at least two reveals
are at least it. -/
theorem settlementPrice_second_highest :
    settlementPrice [] = none ∧
    (∀ b : Nat, settlementPrice [b] = some b) ∧
    (∀ reveals : List Nat, 2 ≤ reveals.length →
      ∃ price, settlementPrice reveals = some price ∧
        price ∈ reveals ∧
        reveals.countP (fun x => decide (price < x)) ≤ 1 ∧
        2 ≤ reveals.countP (fun x => decide (price ≤ x))) := by
  refine ⟨rfl, fun b => rfl, ?_⟩
  intro l hl
  obtain ⟨a, l1, rfl⟩ : ∃ a l1, l = a :: l1 := by
    cases l with
    | nil => simp at hl
    | cons a l1 => exact ⟨a, l1, rfl⟩
  obtain ⟨b, t, rfl⟩ : ∃ b t, l1 = b :: t := by
    cases l1 with
    | nil => simp at hl
    | cons b t => exact ⟨b, t, rfl⟩
  set l := a :: b :: t with hldef
  have hlne : l ≠ [] := by simp [hldef]
  set M := listMax l with hMdef
  have hMmem : M ∈ l := listMax_mem hlne
  have hMub : ∀ x ∈ l, x ≤ M := fun x hx => le_listMax hx
  set l' := l.erase M with hl'def
  have hperm : List.Perm l (M :: l') := List.perm_cons_erase hMmem
  have hl'len : l'.length = l.length - 1 := List.length_erase_of_mem hMmem
  have hl'ne : l' ≠ [] := by
    intro hnil
    rw [hnil] at hl'len
    simp [hldef] at hl'len
  set price := listMax l' with hpdef
  have hpmem' : price ∈ l' := listMax_mem hl'ne
  have hpmem : price ∈ l := List.mem_of_mem_erase hpmem'
  have hpleM : price ≤ M := hMub price hpmem
  have hub' : ∀ x ∈ l', x ≤ price := fun x hx => le_listMax hx
  refine ⟨price, ?_, hpmem, ?_, ?_⟩
  · simp [hldef, settlementPrice, hpdef, hl'def, hMdef]
  · have hz : l'.countP (fun x => decide (price < x)) = 0 := by
      rw [List.countP_eq_zero]
      intro x hx
      simpa using Nat.not_lt.mpr (hub' x hx)
    rw [(hperm.countP_eq (fun x => decide (price < x))), List.countP_cons, hz]
    by_cases hc : price < M <;> simp [hc]
  · rw [(hperm.countP_eq (fun x => decide (price ≤ x))), List.countP_cons]
    have hpos : 0 < l'.countP (fun x => decide (price ≤ x)) := by
      rw [List.countP_pos_iff]
      exact ⟨price, hpmem', by simp⟩
    simp only [decide_eq_true_eq]
    rw [if_pos hpleM]
    omega

/-- Witness for C1: the two-reveal spec example (bids 1000 and 2000) settles
at 1000, together with the empty and sole-reveal cases. -/
theorem settlementPrice_second_highest_witness :
    ∃ price, settlementPrice [1000, 2000] = some price ∧
      price ∈ [1000, 2000] ∧
      ([1000, 2000] : List Nat).countP (fun x => decide (price < x)) ≤ 1 ∧
      2 ≤ ([1000, 2000] : List Nat).countP (fun x => decide (price ≤ x)) :=
  settlementPrice_second_highest.2.2 [1000, 2000] (by decide)

/-- A bid of one auction cycle as the redeem rules see it: its public
lockup, whether its reveal arrived inside the REVEAL window, and whether it
won the auction. -/
structure Bid where
  lockup : Nat
  revealed : Bool
  winner : Bool
deriving Repr, DecidableEq

/-- Modelled from the spec: REDEEM validity (the Covenant Validator module
`lib/covenants` is not in the source tree).  A REDEEM is valid only against
a bid that was revealed and either lost the auction or saw the window close
with no winner accepted. -/
def redeemValid (b : Bid) (winnerAccepted : Bool) : Bool :=
  b.revealed && (!b.winner || !winnerAccepted)

/-- Modelled from the spec: refund and forfeiture amounts of the Auction
Engine (module not in the source tree).  An unrevealed bid forfeits its
whole lockup (refund 0); a revealed losing bid recovers its whole lockup;
the winner recovers the lockup in excess of the settlement price. -/
def refundAmount (b : Bid) (settlement : Nat) : Nat :=
  if !b.revealed then 0
  else if b.winner then b.lockup - settlement
  else b.lockup

example : refundAmount ⟨2000, true, false⟩ 1000 = 2000 := by decide
example : refundAmount ⟨3000, true, true⟩ 1000 = 2000 := by decide
example : refundAmount ⟨3000, false, false⟩ 1000 = 0 := by decide

/-- C3: REDEEM is valid iff the bid was revealed and lost (or no winner was
accepted); an unrevealed bid forfeits its whole lockup; a revealed losing
bid recovers its full lockup; the winner recovers the lockup in excess of
the settlement price. -/
theorem redeem_refund_rules (b : Bid) (winnerAccepted : Bool) (settlement : Nat) :
    (redeemValid b winnerAccepted = true ↔
      (b.revealed = true ∧ (b.winner = false ∨ winnerAccepted = false))) ∧
    (b.revealed = false → refundAmount b settlement = 0) ∧
    (b.revealed = true → b.winner = false → refundAmount b settlement = b.lockup) ∧
    (b.revealed = true → b.winner = true →
      refundAmount b settlement = b.lockup - settlement) := by
  refine ⟨?_, ?_, ?_, ?_⟩
  · cases hb : b.revealed <;> cases hw : b.winner <;> cases winnerAccepted <;>
      simp [redeemValid, hb, hw]
  · intro h; simp [refundAmount, h]
  · intro h1 h2; simp [refundAmount, h1, h2]
  · intro h1 h2; simp [refundAmount, h1, h2]

/-- Witness for C3 at the spec scenario: losing bidder A recovers the full
2000 lockup, winner B recovers 3000 − 1000 = 2000, an unrevealed bid with
lockup 2000 recovers nothing, and a revealed losing bid is REDEEM-able. -/
theorem redeem_refund_rules_witness :
    refundAmount ⟨2000, true, false⟩ 1000 = 2000 ∧
    refundAmount ⟨3000, true, true⟩ 1000 = 3000 - 1000 ∧
    refundAmount ⟨2000, false, false⟩ 1000 = 0 ∧
    (redeemValid ⟨2000, true, false⟩ true = true ↔
      ((⟨2000, true, false⟩ : Bid).revealed = true ∧
        ((⟨2000, true, false⟩ : Bid).winner = false ∨ true = false))) :=
  ⟨(redeem_refund_rules ⟨2000, true, false⟩ true 1000).2.2.1 rfl rfl,
   (redeem_refund_rules ⟨3000, true, true⟩ true 1000).2.2.2 rfl rfl,
   (redeem_refund_rules ⟨2000, false, false⟩ true 1000).2.1 rfl,
   (redeem_refund_rules ⟨2000, true, false⟩ true 1000).1⟩

/-- Rejection reasons of the Covenant Validator used below. -/
inductive NameError where
  | PrematureFinalize
  | Revoked
  | MalformedCovenant
deriving Repr, DecidableEq

/-- Modelled from the spec: the FINALIZE height gate of the Covenant
Validator (module not in the source tree).  A pending TRANSFER initiated at
`transferHeight` finalizes only once `transferLockup` blocks elapsed and
only while the name is not revoked; an early attempt is rejected with
PrematureFinalize. -/
def checkFinalize (c : Names) (transferHeight currentHeight : Nat)
    (revoked : Bool) : Except NameError Unit :=
  if currentHeight < transferHeight + c.transferLockup then
    .error .PrematureFinalize
  else if revoked then .error .Revoked
  else .ok ()

example : checkFinalize ⟨5, 5, 10, 10, 100⟩ 200 209 false =
    .error .PrematureFinalize := rfl
example : checkFinalize ⟨5, 5, 10, 10, 100⟩ 200 210 false = .ok () := rfl

/-- C4: FINALIZE is accepted iff `transferHeight + transferLockup ≤
currentHeight` and the name is not revoked; below the gate it is rejected
with PrematureFinalize, and exactly at `transferHeight + transferLockup`
it succeeds. -/
theorem finalize_height_gate (c : Names) (transferHeight currentHeight : Nat)
    (revoked : Bool) :
    (checkFinalize c transferHeight currentHeight revoked = .ok () ↔
      (transferHeight + c.transferLockup ≤ currentHeight ∧ revoked = false)) ∧
    (currentHeight < transferHeight + c.transferLockup →
      checkFinalize c transferHeight currentHeight revoked =
        .error .PrematureFinalize) ∧
    (revoked = false →
      checkFinalize c transferHeight (transferHeight + c.transferLockup)
        revoked = .ok ()) := by
  refine ⟨?_, ?_, ?_⟩
  · unfold checkFinalize
    split <;> rename_i h1
    · constructor
      · intro h; exact absurd h (by simp)
      · rintro ⟨h2, _⟩; omega
    · split <;> rename_i h2
      · constructor
        · intro h; exact absurd h (by simp)
        · rintro ⟨_, h3⟩; simp [h2] at h3
      · constructor
        · intro _; exact ⟨by omega, by simpa using h2⟩
        · intro _; rfl
  · intro h; unfold checkFinalize; rw [if_pos h]
  · intro h; unfold checkFinalize
    rw [if_neg (by omega), if_neg (by simp [h])]

/-- Witness for C4 at the spec scenario: TRANSFER at height 200 with
`transferLockup = 10` is PrematureFinalize at 209 and accepted at 210. -/
theorem finalize_height_gate_witness :
    checkFinalize ⟨5, 5, 10, 10, 100⟩ 200 209 false =
      .error .PrematureFinalize ∧
    checkFinalize ⟨5, 5, 10, 10, 100⟩ 200 (200 + 10) false = .ok () :=
  ⟨(finalize_height_gate ⟨5, 5, 10, 10, 100⟩ 200 209 false).2.1 (by decide),
   (finalize_height_gate ⟨5, 5, 10, 10, 100⟩ 200 210 false).2.2 rfl⟩

/-- The eleven covenant transition types. -/
inductive CovType where
  | OPEN | BID | REVEAL | REDEEM | REGISTER | UPDATE
  | RENEW | TRANSFER | FINALIZE | REVOKE | CLAIM
deriving Repr, DecidableEq

/-- Shape of one covenant item: a fixed byte width, a raw name of 1 to 63
bytes, or a free-length blob. -/
inductive ItemSpec where
  | fixed (width : Nat)
  | name
  | blob
deriving Repr, DecidableEq

/-- Whether one item (a byte list) fits one item shape. -/
def itemOk : ItemSpec → List Nat → Bool
  | .fixed w, item => item.length == w
  | .name, item => decide (1 ≤ item.length ∧ item.length ≤ 63)
  | .blob, _ => true

/-- Modelled from the spec: the fixed required item shape of each covenant
type (the validator module `lib/covenants/rules` is not in the source
tree).  The spec and the bid test pin the BID shape exactly: name hash,
open height as a 32-bit little-endian integer, raw name bytes and a
32-byte blind; every shape opens with the name hash and a height; the
remaining entries are representative fixed shapes. -/
def requiredShape : CovType → List ItemSpec
  | .OPEN => [.fixed 32, .fixed 4, .name]
  | .BID => [.fixed 32, .fixed 4, .name, .fixed 32]
  | .REVEAL => [.fixed 32, .fixed 4, .fixed 32]
  | .REDEEM => [.fixed 32, .fixed 4]
  | .REGISTER => [.fixed 32, .fixed 4, .blob, .fixed 32]
  | .UPDATE => [.fixed 32, .fixed 4, .blob]
  | .RENEW => [.fixed 32, .fixed 4, .fixed 32]
  | .TRANSFER => [.fixed 32, .fixed 4, .fixed 1, .blob]
  | .FINALIZE => [.fixed 32, .fixed 4, .name, .fixed 1, .fixed 4, .fixed 4, .fixed 32]
  | .REVOKE => [.fixed 32, .fixed 4]
  | .CLAIM => [.fixed 32, .fixed 4, .name, .fixed 1, .fixed 4, .fixed 4]

/-- A covenant: a type tag and its ordered list of byte items. -/
structure Covenant where
  ctype : CovType
  items : List (List Nat)
deriving Repr, DecidableEq

/-- Whether the items of a covenant match the required shape of its type. -/
def shapeOk (cov : Covenant) : Bool :=
  cov.items.length == (requiredShape cov.ctype).length &&
    (List.zip (requiredShape cov.ctype) cov.items).all
      (fun p => itemOk p.1 p.2)

/-- Modelled from the spec: the up-front item check of the Covenant
Validator; a covenant with the wrong item count or item shape for its type
is rejected as MalformedCovenant. -/
def checkCovenant (cov : Covenant) : Except NameError Unit :=
  if shapeOk cov then .ok () else .error .MalformedCovenant

/-- The 32-bit little-endian encoding of a block height, as carried by the
second item of a BID covenant. -/
def encodeU32LE (n : Nat) : List Nat :=
  [n % 256, n / 256 % 256, n / 65536 % 256, n / 16777216 % 256]

/-- Little-endian read-back of a 4-byte item. -/
def decodeU32LE : List Nat → Nat
  | [b0, b1, b2, b3] => b0 + 256 * b1 + 65536 * b2 + 16777216 * b3
  | _ => 0

/-- The BID covenant the wallet builds: name hash, open height (32-bit
little endian), raw name, blind commitment. -/
def mkBidCovenant (nameHash : List Nat) (openHeight : Nat)
    (rawName blind : List Nat) : Covenant :=
  ⟨.BID, [nameHash, encodeU32LE openHeight, rawName, blind]⟩

example : checkCovenant (mkBidCovenant (List.replicate 32 0) 21
    [102, 111, 111] (List.replicate 32 7)) = .ok () := rfl
example : checkCovenant ⟨.BID, [[0], [1]]⟩ = .error .MalformedCovenant := rfl

/-- C5: every covenant type has one fixed required item shape and the item
check either accepts or rejects with MalformedCovenant; a covenant whose
item count differs from its type requirement is rejected as
MalformedCovenant, and so is a covenant with the right count but any item
violating its shape — in particular a BID whose name hash, height, raw
name or blind item has the wrong width; the BID shape is exactly four
items (32-byte name hash, 4-byte little-endian open height, 1-63-byte raw
name, 32-byte blind), a well-formed BID is accepted, and the height item
decodes back to the open height. -/
theorem covenant_shape_rules :
    (∀ cov : Covenant,
      checkCovenant cov = .ok () ∨
      checkCovenant cov = .error .MalformedCovenant) ∧
    (∀ cov : Covenant,
      cov.items.length ≠ (requiredShape cov.ctype).length →
      checkCovenant cov = .error .MalformedCovenant) ∧
    (∀ (cov : Covenant) (p : ItemSpec × List Nat),
      p ∈ List.zip (requiredShape cov.ctype) cov.items →
      itemOk p.1 p.2 = false →
      checkCovenant cov = .error .MalformedCovenant) ∧
    (∀ i0 i1 i2 i3 : List Nat,
      (i0.length ≠ 32 ∨ i1.length ≠ 4 ∨ i2.length = 0 ∨ 63 < i2.length ∨
        i3.length ≠ 32) →
      checkCovenant ⟨.BID, [i0, i1, i2, i3]⟩ =
        .error .MalformedCovenant) ∧
    requiredShape .BID = [.fixed 32, .fixed 4, .name, .fixed 32] ∧
    (∀ (nameHash rawName blind : List Nat) (openHeight : Nat),
      nameHash.length = 32 → 1 ≤ rawName.length → rawName.length ≤ 63 →
      blind.length = 32 → openHeight < 4294967296 →
      checkCovenant (mkBidCovenant nameHash openHeight rawName blind) =
        .ok () ∧
      (mkBidCovenant nameHash openHeight rawName blind).items.length = 4 ∧
      (encodeU32LE openHeight).length = 4 ∧
      decodeU32LE (encodeU32LE openHeight) = openHeight) := by
  refine ⟨?_, ?_, ?_, ?_, rfl, ?_⟩
  · intro cov
    unfold checkCovenant
    split
    · exact Or.inl rfl
    · exact Or.inr rfl
  · intro cov hlen
    unfold checkCovenant
    rw [if_neg]
    intro hok
    unfold shapeOk at hok
    rw [Bool.and_eq_true] at hok
    exact hlen (by simpa using hok.1)
  · intro cov p hmem hbad
    unfold checkCovenant
    rw [if_neg]
    intro hok
    unfold shapeOk at hok
    rw [Bool.and_eq_true] at hok
    have hall := List.all_eq_true.mp hok.2 p hmem
    rw [hbad] at hall
    exact Bool.false_ne_true hall
  · intro i0 i1 i2 i3 hbad
    have hnot : ¬ shapeOk ⟨.BID, [i0, i1, i2, i3]⟩ = true := by
      intro hok
      unfold shapeOk at hok
      simp only [requiredShape, List.zip, List.zipWith, List.all_cons,
        List.all_nil, itemOk, Bool.and_eq_true, beq_iff_eq,
        decide_eq_true_eq] at hok
      omega
    unfold checkCovenant
    rw [if_neg hnot]
  · intro nameHash rawName blind openHeight h32 hr1 hr63 hb32 hlt
    refine ⟨?_, rfl, rfl, ?_⟩
    · unfold checkCovenant
      rw [if_pos]
      unfold shapeOk mkBidCovenant
      simp [itemOk, requiredShape, encodeU32LE, h32, hb32, hr1, hr63]
    · simp only [encodeU32LE, decodeU32LE]
      omega

/-- Witness for C5: the BID built for the wallet-test values (open height
21, five-byte name) is well formed and its height item reads back as 21,
while the same BID with a 31-byte blind — four items, one of the wrong
width — is rejected as MalformedCovenant. -/
theorem covenant_shape_rules_witness :
    checkCovenant (mkBidCovenant (List.replicate 32 1) 21
      [104, 101, 108, 108, 111] (List.replicate 32 9)) = .ok () ∧
    (mkBidCovenant (List.replicate 32 1) 21
      [104, 101, 108, 108, 111] (List.replicate 32 9)).items.length = 4 ∧
    (encodeU32LE 21).length = 4 ∧
    decodeU32LE (encodeU32LE 21) = 21 ∧
    checkCovenant ⟨.BID, [List.replicate 32 1, encodeU32LE 21,
      [104, 101, 108, 108, 111], List.replicate 31 9]⟩ =
      .error .MalformedCovenant :=
  have hbid := covenant_shape_rules.2.2.2.2.2 (List.replicate 32 1)
    [104, 101, 108, 108, 111] (List.replicate 32 9) 21
    (by decide) (by decide) (by decide) (by decide) (by decide)
  ⟨hbid.1, hbid.2.1, hbid.2.2.1, hbid.2.2.2,
    covenant_shape_rules.2.2.2.1 (List.replicate 32 1) (encodeU32LE 21)
      [104, 101, 108, 108, 111] (List.replicate 31 9) (by decide)⟩

/-- An outpoint: a transaction id (abstracted to a number) and an output
index; the unit of spend authority. -/
structure Outpoint where
  txid : Nat
  index : Nat
deriving Repr, DecidableEq

/-- The per-name record kept by the validator: OPEN height, the coin that
controls the name, the locked (settlement) value, the bound resource data,
the renewal deadline, and whether a REGISTER has already entered. -/
structure NameState where
  height : Nat
  owner : Outpoint
  value : Nat
  data : List Nat
  renewal : Nat
  registered : Bool
deriving Repr, DecidableEq

/-- Modelled from the spec: the covenant type the first and every later
owner data update carries (wallet update path; module not in the source
tree): REGISTER on first entry into CLOSED, UPDATE afterwards. -/
def updateCovenantType (ns : NameState) : CovType :=
  if ns.registered then .UPDATE else .REGISTER

/-- A reveal of one auction cycle: the disclosed bid amount and the
outpoint of the BID/REVEAL coin it controls, listed in reveal order. -/
structure Reveal where
  bid : Nat
  coin : Outpoint
deriving Repr, DecidableEq

/-- Modelled from the spec: winner selection of the Auction Engine (module
not in the source tree).  Among all reveals the highest bid wins, ties
broken by the earliest reveal in the deterministic reveal order of the
list; a voided auction (no reveals) resolves no winner. -/
def selectWinner : List Reveal → Option Reveal
  | [] => none
  | r :: rest =>
    some (rest.foldl (fun best x => if best.bid < x.bid then x else best) r)

/-- Modelled from the spec: the REGISTER transition of the Covenant
Validator (module not in the source tree).  Accepted only in phase CLOSED
on a name with no prior REGISTER, only when the auction resolved exactly
one winning reveal (never on a voided auction) and the settlement price is
computed, and only when the coin being spent is the winning BID/REVEAL
coin; the winner becomes the owner, the value becomes the settlement
price, data is bound and the renewal deadline is set. -/
def applyRegister (c : Names) (ns : NameState) (reveals : List Reveal)
    (spent : Outpoint) (d : List Nat) (h : Nat) : Option NameState :=
  match selectWinner reveals, settlementPrice (reveals.map Reveal.bid) with
  | some w, some price =>
    if phase c ns.height h = .CLOSED ∧ ns.registered = false ∧
        spent = w.coin then
      some ⟨ns.height, w.coin, price, d, h + c.renewalWindow, true⟩
    else none
  | _, _ => none

/-- Modelled from the spec: the UPDATE transition of the Covenant
Validator (module not in the source tree).  Accepted only on a registered
name before its renewal deadline; data is replaced and the owner coin is
rotated to a new outpoint, the renewal deadline unchanged. -/
def applyUpdate (ns : NameState) (newOwner : Outpoint) (d : List Nat)
    (h : Nat) : Option NameState :=
  if ns.registered = true ∧ h ≤ ns.renewal then
    some { ns with owner := newOwner, data := d }
  else none

/-- A chain of owner data updates applied in order: each entry rotates the
owner coin to a new outpoint and binds new data at some height. -/
def applyUpdates : NameState → List (Outpoint × List Nat × Nat) →
    Option NameState
  | ns, [] => some ns
  | ns, (o, d, h) :: rest =>
    (applyUpdate ns o d h).bind (fun m => applyUpdates m rest)

/-- Any chain of accepted UPDATEs on a registered name keeps it registered
and leaves the renewal deadline and locked value unchanged. -/
theorem applyUpdates_keep (us : List (Outpoint × List Nat × Nat)) :
    ∀ ns1 ns2 : NameState, ns1.registered = true →
      applyUpdates ns1 us = some ns2 →
      ns2.renewal = ns1.renewal ∧ ns2.value = ns1.value ∧
      ns2.registered = true := by
  induction us with
  | nil =>
    intro ns1 ns2 hreg hap
    unfold applyUpdates at hap
    obtain rfl := Option.some_inj.mp hap
    exact ⟨rfl, rfl, hreg⟩
  | cons u rest ih =>
    intro ns1 ns2 hreg hap
    obtain ⟨o, du, hu⟩ := u
    unfold applyUpdates at hap
    cases hup : applyUpdate ns1 o du hu with
    | none =>
      rw [hup, Option.none_bind] at hap
      exact absurd hap (by simp)
    | some m =>
      rw [hup, Option.some_bind] at hap
      have hm : m.renewal = ns1.renewal ∧ m.value = ns1.value ∧
          m.registered = true := by
        unfold applyUpdate at hup
        by_cases hc : ns1.registered = true ∧ hu ≤ ns1.renewal
        · rw [if_pos hc] at hup
          obtain rfl := Option.some_inj.mp hup
          exact ⟨rfl, rfl, hc.1⟩
        · rw [if_neg hc] at hup
          exact absurd hup (by simp)
      have hrest := ih m ns2 hm.2.2 hap
      exact ⟨hrest.1.trans hm.1, hrest.2.1.trans hm.2.1, hrest.2.2⟩

/-- C6: for a name whose auction just closed with no prior REGISTER, the
first data update is a REGISTER: it is accepted only when exactly one
winning reveal is resolved (a voided auction admits none) and the coin
being spent is the winning BID/REVEAL coin, and it makes the winner the
owner, the settlement price the value, and sets the renewal deadline;
afterwards every subsequent data update on the registered name — along any
chain of accepted updates — is an UPDATE that replaces the data and
rotates the owner coin while leaving the renewal deadline, value and
registered flag unchanged. -/
theorem register_then_update (c : Names) (ns : NameState)
    (reveals : List Reveal) (spent newOwner : Outpoint)
    (d d2 : List Nat) (h h2 : Nat)
    (hclosed : phase c ns.height h = .CLOSED)
    (hfirst : ns.registered = false) :
    updateCovenantType ns = .REGISTER ∧
    (reveals = [] → applyRegister c ns reveals spent d h = none) ∧
    (∀ w, selectWinner reveals = some w → spent ≠ w.coin →
      applyRegister c ns reveals spent d h = none) ∧
    (∀ res, applyRegister c ns reveals spent d h = some res →
      ∃ w price, selectWinner reveals = some w ∧
        settlementPrice (reveals.map Reveal.bid) = some price ∧
        spent = w.coin ∧ res.owner = w.coin ∧ res.value = price ∧
        res.data = d ∧ res.renewal = h + c.renewalWindow ∧
        res.registered = true) ∧
    (∀ w price, selectWinner reveals = some w →
      settlementPrice (reveals.map Reveal.bid) = some price →
      spent = w.coin →
      applyRegister c ns reveals spent d h =
        some ⟨ns.height, w.coin, price, d, h + c.renewalWindow, true⟩) ∧
    (∀ ns1 : NameState, ns1.registered = true →
      updateCovenantType ns1 = .UPDATE ∧
      (h2 ≤ ns1.renewal →
        applyUpdate ns1 newOwner d2 h2 =
          some ⟨ns1.height, newOwner, ns1.value, d2, ns1.renewal, true⟩) ∧
      (∀ us ns2, applyUpdates ns1 us = some ns2 →
        ns2.renewal = ns1.renewal ∧ ns2.value = ns1.value ∧
        ns2.registered = true ∧ updateCovenantType ns2 = .UPDATE)) := by
  refine ⟨by simp [updateCovenantType, hfirst], ?_, ?_, ?_, ?_, ?_⟩
  · intro hrev
    subst hrev
    rfl
  · intro w hsel hne
    cases hsp : settlementPrice (reveals.map Reveal.bid) with
    | none => simp [applyRegister, hsel, hsp]
    | some price => simp [applyRegister, hsel, hsp, hne]
  · intro res hres
    cases hsel : selectWinner reveals with
    | none => simp [applyRegister, hsel] at hres
    | some w =>
      cases hsp : settlementPrice (reveals.map Reveal.bid) with
      | none => simp [applyRegister, hsel, hsp] at hres
      | some price =>
        rw [applyRegister, hsel, hsp] at hres
        have hres2 : (if phase c ns.height h = .CLOSED ∧
            ns.registered = false ∧ spent = w.coin then
            some (⟨ns.height, w.coin, price, d, h + c.renewalWindow, true⟩ :
              NameState)
          else none) = some res := hres
        by_cases hc : phase c ns.height h = .CLOSED ∧
            ns.registered = false ∧ spent = w.coin
        · rw [if_pos hc] at hres2
          obtain rfl := Option.some_inj.mp hres2
          exact ⟨w, price, rfl, rfl, hc.2.2, rfl, rfl, rfl, rfl, rfl⟩
        · rw [if_neg hc] at hres2
          exact absurd hres2 (by simp)
  · intro w price hsel hsp hspent
    rw [applyRegister, hsel, hsp]
    show (if phase c ns.height h = .CLOSED ∧ ns.registered = false ∧
        spent = w.coin then
        some (⟨ns.height, w.coin, price, d, h + c.renewalWindow, true⟩ :
          NameState)
      else none) =
      some ⟨ns.height, w.coin, price, d, h + c.renewalWindow, true⟩
    rw [if_pos ⟨hclosed, hfirst, hspent⟩]
  · intro ns1 hreg1
    obtain ⟨nh, no, nv, nd, nr, nflag⟩ := ns1
    subst hreg1
    refine ⟨rfl, ?_, ?_⟩
    · intro hh
      rw [applyUpdate, if_pos ⟨rfl, hh⟩]
    · intro us ns2 hap
      have hk := applyUpdates_keep us ⟨nh, no, nv, nd, nr, true⟩ ns2 rfl hap
      refine ⟨hk.1, hk.2.1, hk.2.2, ?_⟩
      simp [updateCovenantType, hk.2.2]

/-- Witness for C6: regtest-like constants, name opened at 100; two
reveals with bids 1000 and 2000 resolve the 2000 reveal as winner, so at
height 125 (CLOSED) spending its coin registers the winner as owner at
settlement 1000; a voided auction admits no REGISTER; an UPDATE at height
150 rotates the owner and replaces the data with renewal and value
unchanged. -/
theorem register_then_update_witness :
    updateCovenantType ⟨100, ⟨1, 0⟩, 0, [], 0, false⟩ = .REGISTER ∧
    applyRegister ⟨5, 5, 10, 10, 100⟩ ⟨100, ⟨1, 0⟩, 0, [], 0, false⟩
      [⟨1000, ⟨7, 0⟩⟩, ⟨2000, ⟨8, 1⟩⟩] ⟨8, 1⟩ [1] 125 =
      some ⟨100, ⟨8, 1⟩, 1000, [1], 125 + 100, true⟩ ∧
    applyRegister ⟨5, 5, 10, 10, 100⟩ ⟨100, ⟨1, 0⟩, 0, [], 0, false⟩
      [] ⟨8, 1⟩ [1] 125 = none ∧
    applyUpdate ⟨100, ⟨8, 1⟩, 1000, [1], 225, true⟩ ⟨3, 1⟩ [2] 150 =
      some ⟨100, ⟨3, 1⟩, 1000, [2], 225, true⟩ :=
  ⟨(register_then_update ⟨5, 5, 10, 10, 100⟩ ⟨100, ⟨1, 0⟩, 0, [], 0, false⟩
      [⟨1000, ⟨7, 0⟩⟩, ⟨2000, ⟨8, 1⟩⟩] ⟨8, 1⟩ ⟨3, 1⟩ [1] [2] 125 150
      (by decide) rfl).1,
   (register_then_update ⟨5, 5, 10, 10, 100⟩ ⟨100, ⟨1, 0⟩, 0, [], 0, false⟩
      [⟨1000, ⟨7, 0⟩⟩, ⟨2000, ⟨8, 1⟩⟩] ⟨8, 1⟩ ⟨3, 1⟩ [1] [2] 125 150
      (by decide) rfl).2.2.2.2.1 ⟨2000, ⟨8, 1⟩⟩ 1000 rfl (by decide) rfl,
   (register_then_update ⟨5, 5, 10, 10, 100⟩ ⟨100, ⟨1, 0⟩, 0, [], 0, false⟩
      [] ⟨8, 1⟩ ⟨3, 1⟩ [1] [2] 125 150 (by decide) rfl).2.1 rfl,
   ((register_then_update ⟨5, 5, 10, 10, 100⟩ ⟨100, ⟨1, 0⟩, 0, [], 0, false⟩
      [⟨1000, ⟨7, 0⟩⟩, ⟨2000, ⟨8, 1⟩⟩] ⟨8, 1⟩ ⟨3, 1⟩ [1] [2] 125 150
      (by decide) rfl).2.2.2.2.2 ⟨100, ⟨8, 1⟩, 1000, [1], 225, true⟩
      rfl).2.1 (by decide)⟩

namespace Net

/-- The sliding window counter of src/lib/net/window.js: window period and
request cap, the current and previous window counters, and the start time
of the current window in milliseconds.  The JS timeout handle only drives
start/stop/reset and carries no counted state. -/
structure SlidingWindow where
  window : Int
  max : Int
  current : Int
  previous : Int
  timestamp : Int
deriving Repr, DecidableEq

/-- score() of src/lib/net/window.js at a given clock reading `now`
(Date.now()): weight = 1 - (now - timestamp) / window must be positive
(the assert), and the result is previous * weight + current.  The method
assigns no field, so the state comes back unchanged; `none` is the assert
failure. -/
def SlidingWindow.score (st : SlidingWindow) (now : Int) :
    Option (ℚ × SlidingWindow) :=
  if 0 < 1 - ((now - st.timestamp : Int) : ℚ) / (st.window : ℚ) then
    some ((st.previous : ℚ) *
        (1 - ((now - st.timestamp : Int) : ℚ) / (st.window : ℚ)) +
      (st.current : ℚ), st)
  else none

/-- allow() of src/lib/net/window.js: false when score() reaches max,
true otherwise; it assigns no field. -/
def SlidingWindow.allow (st : SlidingWindow) (now : Int) :
    Option (Bool × SlidingWindow) :=
  match st.score now with
  | none => none
  | some (s, st1) => if (st1.max : ℚ) ≤ s then some (false, st1)
      else some (true, st1)

/-- increase() of src/lib/net/window.js: requires a 32-bit unsigned count
and adds it to the current counter. -/
def SlidingWindow.increase (st : SlidingWindow) (count : Int) :
    Option SlidingWindow :=
  if 0 ≤ count ∧ count < 4294967296 then
    some { st with current := st.current + count }
  else none

end Net

/-- The weight `1 - ms / window` is positive exactly when `ms < window`,
for a positive window length. -/
theorem weight_pos_iff (ms w : Int) (hw : 0 < w) :
    ((0 : ℚ) < 1 - (ms : ℚ) / (w : ℚ)) ↔ ms < w := by
  have hwQ : (0 : ℚ) < (w : ℚ) := by exact_mod_cast hw
  rw [sub_pos, div_lt_one hwQ]
  exact_mod_cast Iff.rfl

/-- C8: for a state of the net SlidingWindow whose elapsed time since the
window start is non-negative and strictly below the window length, score()
returns previous * (1 - elapsed/window) + current with the state intact,
and allow() returns the state intact with true exactly when that score is
below max. -/
theorem allow_iff_score_below_max (st : Net.SlidingWindow) (now : Int)
    (h0 : 0 ≤ now - st.timestamp) (h1 : now - st.timestamp < st.window) :
    ∃ s : ℚ, st.score now = some (s, st) ∧
      s = (st.previous : ℚ) *
          (1 - ((now - st.timestamp : Int) : ℚ) / (st.window : ℚ)) +
        (st.current : ℚ) ∧
      ∃ b : Bool, st.allow now = some (b, st) ∧
        (b = true ↔ s < (st.max : ℚ)) := by
  have hw : 0 < st.window := lt_of_le_of_lt h0 h1
  have hweight := (weight_pos_iff (now - st.timestamp) st.window hw).mpr h1
  have hscore : st.score now =
      some ((st.previous : ℚ) *
          (1 - ((now - st.timestamp : Int) : ℚ) / (st.window : ℚ)) +
        (st.current : ℚ), st) := by
    rw [Net.SlidingWindow.score, if_pos hweight]
  refine ⟨_, hscore, rfl, ?_⟩
  by_cases hc : (st.max : ℚ) ≤ (st.previous : ℚ) *
      (1 - ((now - st.timestamp : Int) : ℚ) / (st.window : ℚ)) +
    (st.current : ℚ)
  · refine ⟨false, ?_, ?_⟩
    · rw [Net.SlidingWindow.allow, hscore]
      exact if_pos hc
    · exact iff_of_false (by simp) (not_lt.mpr hc)
  · refine ⟨true, ?_, ?_⟩
    · rw [Net.SlidingWindow.allow, hscore]
      exact if_neg hc
    · exact iff_of_true rfl (not_le.mp hc)

/-- Witness for C8: window 1000 ms, max 100, previous 50, current 10,
500 ms into the window; the score is 35 and allow() returns true. -/
theorem allow_iff_score_below_max_witness :
    ∃ s : ℚ,
      Net.SlidingWindow.score ⟨1000, 100, 10, 50, 0⟩ 500 =
        some (s, ⟨1000, 100, 10, 50, 0⟩) ∧
      s = ((50 : Int) : ℚ) *
          (1 - ((500 - (0 : Int) : Int) : ℚ) / ((1000 : Int) : ℚ)) +
        ((10 : Int) : ℚ) ∧
      ∃ b : Bool,
        Net.SlidingWindow.allow ⟨1000, 100, 10, 50, 0⟩ 500 =
          some (b, ⟨1000, 100, 10, 50, 0⟩) ∧
        (b = true ↔ s < ((100 : Int) : ℚ)) :=
  allow_iff_score_below_max ⟨1000, 100, 10, 50, 0⟩ 500
    (by norm_num) (by norm_num)

namespace Root

/-- The sliding window counter of src/window.js: window period, request
limit, the current window counter, the previous window counter, and the
current window start time in milliseconds (its `current` field). -/
structure SlidingWindow where
  window : Int
  limit : Int
  counter : Int
  previous : Int
  current : Int
deriving Repr, DecidableEq

/-- score() of src/window.js at clock reading `now`: percent =
1 - (now - current) / window must be positive (the assert), and the result
is previous * percent + counter; no field is assigned. -/
def SlidingWindow.score (st : SlidingWindow) (now : Int) :
    Option (ℚ × SlidingWindow) :=
  if 0 < 1 - ((now - st.current : Int) : ℚ) / (st.window : ℚ) then
    some ((st.previous : ℚ) *
        (1 - ((now - st.current : Int) : ℚ) / (st.window : ℚ)) +
      (st.counter : ℚ), st)
  else none

/-- Outcome of get() of src/window.js: either the over-the-limit error
(state as it was) or a normal return with the updated state. -/
inductive GetResult where
  | overLimit (st : SlidingWindow)
  | ok (st : SlidingWindow)
deriving Repr, DecidableEq

/-- get() of src/window.js: throws over the limit when score() is at least
the limit, otherwise increments the counter; `none` propagates the assert
failure inside score(). -/
def SlidingWindow.get (st : SlidingWindow) (now : Int) : Option GetResult :=
  match st.score now with
  | none => none
  | some (s, st1) =>
    if (st1.limit : ℚ) ≤ s then some (.overLimit st1)
    else some (.ok { st1 with counter := st1.counter + 1 })

end Root

/-- C9: whenever score() of src/window.js is defined it leaves the state
unchanged, and get() throws over the limit exactly when that score reaches
the limit, leaving the state unchanged on the throw; on a normal return
only the counter changes, by exactly one. -/
theorem get_over_limit_iff (st : Root.SlidingWindow) (now : Int)
    (p : ℚ × Root.SlidingWindow) (hs : st.score now = some p) :
    p.2 = st ∧
    ((st.limit : ℚ) ≤ p.1 ↔ st.get now = some (.overLimit st)) ∧
    (p.1 < (st.limit : ℚ) →
      st.get now = some (.ok { st with counter := st.counter + 1 })) := by
  rw [Root.SlidingWindow.score] at hs
  by_cases hweight :
      0 < 1 - ((now - st.current : Int) : ℚ) / (st.window : ℚ)
  · rw [if_pos hweight] at hs
    have hp := (Option.some_inj.mp hs).symm
    have hget : st.get now =
        if (st.limit : ℚ) ≤ p.1 then some (.overLimit st)
        else some (.ok { st with counter := st.counter + 1 }) := by
      rw [Root.SlidingWindow.get, Root.SlidingWindow.score, if_pos hweight,
        hp]
    refine ⟨by rw [hp], ?_, ?_⟩
    · constructor
      · intro hc
        rw [hget, if_pos hc]
      · intro hc
        by_contra hlt
        rw [hget, if_neg hlt] at hc
        simp at hc
    · intro hc
      rw [hget, if_neg (not_le.mpr hc)]
  · rw [if_neg hweight] at hs
    exact absurd hs (by simp)

/-- Witness for C9: window 1000 ms, limit 100, counter 10, previous 0,
window start 0, read at 500 ms; the score is 10, below the limit, so get()
returns normally with the counter at 11. -/
theorem get_over_limit_iff_witness :
    ((10 : ℚ), (⟨1000, 100, 10, 0, 0⟩ : Root.SlidingWindow)).2 =
      (⟨1000, 100, 10, 0, 0⟩ : Root.SlidingWindow) ∧
    (((100 : Int) : ℚ) ≤ (10 : ℚ) ↔
      Root.SlidingWindow.get ⟨1000, 100, 10, 0, 0⟩ 500 =
        some (.overLimit ⟨1000, 100, 10, 0, 0⟩)) ∧
    ((10 : ℚ) < ((100 : Int) : ℚ) →
      Root.SlidingWindow.get ⟨1000, 100, 10, 0, 0⟩ 500 =
        some (.ok ⟨1000, 100, 10 + 1, 0, 0⟩)) :=
  get_over_limit_iff ⟨1000, 100, 10, 0, 0⟩ 500
    ((10 : ℚ), ⟨1000, 100, 10, 0, 0⟩)
    (by rw [Root.SlidingWindow.score]; norm_num)

/-- C10: for positive window lengths, score() succeeds exactly when the
elapsed time since the recorded window start is strictly below the window
length — otherwise the invalid-previous-window-weight assertion fails —
and the operations built on it, allow() of src/lib/net/window.js and
get() of src/window.js, succeed under exactly the same condition. -/
theorem score_defined_iff_in_window (stN : Net.SlidingWindow)
    (stR : Root.SlidingWindow) (nowN nowR : Int)
    (hwN : 0 < stN.window) (hwR : 0 < stR.window) :
    ((stN.score nowN).isSome ↔ nowN - stN.timestamp < stN.window) ∧
    ((stN.allow nowN).isSome ↔ nowN - stN.timestamp < stN.window) ∧
    ((stR.score nowR).isSome ↔ nowR - stR.current < stR.window) ∧
    ((stR.get nowR).isSome ↔ nowR - stR.current < stR.window) := by
  have hN := weight_pos_iff (nowN - stN.timestamp) stN.window hwN
  have hR := weight_pos_iff (nowR - stR.current) stR.window hwR
  have hscoreN : (stN.score nowN).isSome ↔ nowN - stN.timestamp < stN.window := by
    rw [Net.SlidingWindow.score]
    by_cases hc : 0 < 1 - ((nowN - stN.timestamp : Int) : ℚ) / (stN.window : ℚ)
    · rw [if_pos hc]; simpa using hN.mp hc
    · rw [if_neg hc]
      simp only [Option.isSome_none, Bool.false_eq_true, false_iff]
      intro hlt
      exact hc (hN.mpr hlt)
  have hscoreR : (stR.score nowR).isSome ↔ nowR - stR.current < stR.window := by
    rw [Root.SlidingWindow.score]
    by_cases hc : 0 < 1 - ((nowR - stR.current : Int) : ℚ) / (stR.window : ℚ)
    · rw [if_pos hc]; simpa using hR.mp hc
    · rw [if_neg hc]
      simp only [Option.isSome_none, Bool.false_eq_true, false_iff]
      intro hlt
      exact hc (hR.mpr hlt)
  have hallowN : (stN.allow nowN).isSome = (stN.score nowN).isSome := by
    rw [Net.SlidingWindow.allow]
    cases hsc : stN.score nowN with
    | none => simp
    | some q =>
      obtain ⟨s, st1⟩ := q
      by_cases hc : (st1.max : ℚ) ≤ s <;> simp [hc]
  have hgetR : (stR.get nowR).isSome = (stR.score nowR).isSome := by
    rw [Root.SlidingWindow.get]
    cases hsc : stR.score nowR with
    | none => simp
    | some q =>
      obtain ⟨s, st1⟩ := q
      by_cases hc : (st1.limit : ℚ) ≤ s <;> simp [hc]
  exact ⟨hscoreN, by rw [hallowN]; exact hscoreN,
    hscoreR, by rw [hgetR]; exact hscoreR⟩

/-- Witness for C10 at window length 1000 ms for both implementations,
window start 0, clock reading 500 ms. -/
theorem score_defined_iff_in_window_witness :
    ((Net.SlidingWindow.score ⟨1000, 100, 10, 50, 0⟩ 500).isSome ↔
      500 - (0 : Int) < (1000 : Int)) ∧
    ((Net.SlidingWindow.allow ⟨1000, 100, 10, 50, 0⟩ 500).isSome ↔
      500 - (0 : Int) < (1000 : Int)) ∧
    ((Root.SlidingWindow.score ⟨1000, 100, 10, 0, 0⟩ 500).isSome ↔
      500 - (0 : Int) < (1000 : Int)) ∧
    ((Root.SlidingWindow.get ⟨1000, 100, 10, 0, 0⟩ 500).isSome ↔
      500 - (0 : Int) < (1000 : Int)) :=
  score_defined_iff_in_window ⟨1000, 100, 10, 50, 0⟩ ⟨1000, 100, 10, 0, 0⟩
    500 500 (by norm_num) (by norm_num)
